import Mathlib

/-!
Verification of the paip-rust General Problem Solver (GPS).

The definitions below are a shallow embedding of the Rust sources:
  src/gps/state.rs      (StateData, State, StateSet)
  src/gps/condition.rs  (Condition trait, ConditionImpl, ConditionSet)
  src/gps/operation.rs  (Modification, Operation, apply, has_affect)
  src/gps/mod.rs        (GeneralProblemSolver, solve_all, solve_one,
                         find_valid_operations, apply_operation, solve)

Rust HashMaps are modelled as association lists with unique keys (all map
observations go through key lookup, so iteration order is irrelevant).
Rust i32 is modelled as Int (no arithmetic is performed by the engine
itself; modification closures are opaque value functions).
The mutually recursive search is modelled as a fuel-indexed family of
function records, where fuel bounds the recursion depth; a sufficiency
theorem shows the depth bound computed from the problem is never exhausted.
-/

namespace PaipGps

/-- StateData from state.rs: Symbol (presence marker) or Integer payload. -/
inductive StateData where
  | symbol : StateData
  | integer : Int → StateData
deriving DecidableEq, Repr

/-- The manual PartialEq impl for StateData in state.rs. -/
def StateData.eqData : StateData → StateData → Bool
  | .symbol, .symbol => true
  | .symbol, _ => false
  | .integer x, .integer y => x == y
  | .integer _, _ => false

/-- The manual PartialOrd impl for StateData in state.rs. -/
def StateData.partialCmp : StateData → StateData → Option Ordering
  | .symbol, .symbol => some .eq
  | .symbol, _ => none
  | .integer x, .integer y => some (compare x y)
  | .integer _, _ => none

/-- Rust lt derived from partial_cmp: matches Some(Less). -/
def StateData.ltData (a b : StateData) : Bool := a.partialCmp b == some .lt

/-- Rust le derived from partial_cmp: matches Some(Less) or Some(Equal). -/
def StateData.leData (a b : StateData) : Bool :=
  match a.partialCmp b with
  | some .lt => true
  | some .eq => true
  | _ => false

/-- Rust gt derived from partial_cmp: matches Some(Greater). -/
def StateData.gtData (a b : StateData) : Bool := a.partialCmp b == some .gt

/-- Rust ge derived from partial_cmp: matches Some(Greater) or Some(Equal). -/
def StateData.geData (a b : StateData) : Bool :=
  match a.partialCmp b with
  | some .gt => true
  | some .eq => true
  | _ => false

/-- State from state.rs: a named fact with a value. -/
structure State where
  name : String
  data : StateData
deriving DecidableEq, Repr

/-- StateSet from state.rs: HashMap from fact name to value, modelled as an
association list with unique keys. -/
structure StateSet where
  states : List (String × StateData)
deriving DecidableEq, Repr

/-- StateSet::get. -/
def StateSet.get (s : StateSet) (name : String) : Option StateData :=
  (s.states.find? (fun p => p.1 == name)).map (fun p => p.2)

/-- StateSet::insert (HashMap insert: overwrite existing key or add). -/
def StateSet.insert (s : StateSet) (st : State) : StateSet :=
  if s.states.any (fun p => p.1 == st.name) then
    ⟨s.states.map (fun p => if p.1 == st.name then (p.1, st.data) else p)⟩
  else ⟨s.states ++ [(st.name, st.data)]⟩

/-- StateSet::remove (the returned prior value is unused by the engine). -/
def StateSet.remove (s : StateSet) (name : String) : StateSet :=
  ⟨s.states.filter (fun p => !(p.1 == name))⟩

/-- StateSet::get_mut followed by applying a value transformation in place;
if the key is absent nothing happens. -/
def StateSet.modifyValue (s : StateSet) (name : String) (f : StateData → StateData) : StateSet :=
  ⟨s.states.map (fun p => if p.1 == name then (p.1, f p.2) else p)⟩

/-- CompareOperator from condition.rs. -/
inductive CompareOperator where
  | equal | notEqual | greater | greaterEqual | less | lessEqual
deriving DecidableEq, Repr

/-- ConditionImpl from condition.rs: the closed set of predicate kinds.
The compare variant carries (name, state_name, operator, value). -/
inductive ConditionImpl where
  | contain : String → ConditionImpl
  | notContain : String → ConditionImpl
  | compare : String → String → CompareOperator → StateData → ConditionImpl
deriving DecidableEq, Repr

/-- Condition::name for each variant. -/
def ConditionImpl.name : ConditionImpl → String
  | .contain n => n
  | .notContain n => n
  | .compare n _ _ _ => n

/-- Condition::state_name for each variant. -/
def ConditionImpl.state_name : ConditionImpl → String
  | .contain n => n
  | .notContain n => n
  | .compare _ sn _ _ => sn

/-- Condition::check_data for each variant (Contain: always true once looked
up; NotContain: always false; Compare: apply the operator). -/
def ConditionImpl.checkData : ConditionImpl → StateData → Bool
  | .contain _, _ => true
  | .notContain _, _ => false
  | .compare _ _ op v, d =>
    match op with
    | .equal => d.eqData v
    | .notEqual => !(d.eqData v)
    | .greater => d.gtData v
    | .greaterEqual => d.geData v
    | .less => d.ltData v
    | .lessEqual => d.leData v

/-- The default method Condition::check in condition.rs: look up self.name()
in the state set; absent means false, present delegates to check_data. -/
def ConditionImpl.defaultCheck (c : ConditionImpl) (s : StateSet) : Bool :=
  match s.get c.name with
  | some d => c.checkData d
  | none => false

/-- Dynamic dispatch of check: NotContain overrides the default method and
tests absence directly; the other variants use the default method. -/
def ConditionImpl.check (c : ConditionImpl) (s : StateSet) : Bool :=
  match c with
  | .notContain n => (s.get n).isNone
  | _ => c.defaultCheck s

/-- StateSet::has_reached from state.rs. -/
def StateSet.has_reached (s : StateSet) (goals : List ConditionImpl) : Bool :=
  goals.all (fun c => c.check s)

/-- ConditionSet from condition.rs: HashMap from protection key to the list
of protected conditions, modelled as an association list with unique keys. -/
structure ConditionSet where
  conditions : List (String × List ConditionImpl)
deriving DecidableEq, Repr

/-- ConditionSet::get. -/
def ConditionSet.get (s : ConditionSet) (name : String) : Option (List ConditionImpl) :=
  (s.conditions.find? (fun p => p.1 == name)).map (fun p => p.2)

/-- ConditionSet::insert: push onto the existing entry or create one. -/
def ConditionSet.insert (s : ConditionSet) (name : String) (c : ConditionImpl) : ConditionSet :=
  if s.conditions.any (fun p => p.1 == name) then
    ⟨s.conditions.map (fun p => if p.1 == name then (p.1, p.2 ++ [c]) else p)⟩
  else ⟨s.conditions ++ [(name, [c])]⟩

/-- ConditionSet::remove: retain all conditions not equal to the given one. -/
def ConditionSet.remove (s : ConditionSet) (name : String) (c : ConditionImpl) : ConditionSet :=
  ⟨s.conditions.map (fun p =>
    if p.1 == name then (p.1, p.2.filter (fun x => !(x == c))) else p)⟩

/-- Modification from operation.rs: a target fact name and a stored value
transformation (the Rust closure mutating in place is modelled as a pure
value function). -/
structure Modification where
  target_name : String
  modification : StateData → StateData

/-- Operation from operation.rs (the reference-counted immutable record). -/
structure Operation where
  name : String
  prerequisites : List ConditionImpl
  add_states : List State
  remove_states : List String
  modify_states : List Modification

/-- Operation::apply from operation.rs: three sequential loops: insert all
add-effects, then remove all remove-effects, then run each modify-effect on
the in-place value when the target is present. -/
def Operation.apply (op : Operation) (s : StateSet) : StateSet :=
  let s1 := op.add_states.foldl (fun acc st => acc.insert st) s
  let s2 := op.remove_states.foldl (fun acc n => acc.remove n) s1
  op.modify_states.foldl (fun acc m => acc.modifyValue m.target_name m.modification) s2

/-- Operation::has_affect from operation.rs: three loops over add-effects,
remove-effects and modify-effects, each returning true on the first
interference with a protected condition. -/
def Operation.has_affect (op : Operation) (cur : StateSet) (goals : ConditionSet) : Bool :=
  (op.add_states.any (fun st =>
    match goals.get st.name with
    | none => false
    | some conds => conds.any (fun cond =>
        cond.state_name == st.name &&
          match cond with
          | .notContain _ => true
          | _ => false)))
  || (op.remove_states.any (fun sn =>
    match goals.get sn with
    | none => false
    | some conds => conds.any (fun cond =>
        cond.state_name == sn &&
          match cond with
          | .contain _ => true
          | .compare _ _ _ _ => true
          | _ => false)))
  || (op.modify_states.any (fun m =>
    match goals.get m.target_name with
    | none => false
    | some conds => conds.any (fun cond =>
        match cur.get m.target_name with
        | none => false
        | some d => !(cond.checkData (m.modification d)))))

/-- GeneralProblemSolver from mod.rs: operation registry, goal group and
initial states. -/
structure GeneralProblemSolver where
  operations : List Operation
  goals : List ConditionImpl
  states : StateSet

/-- GeneralProblemSolver::find_valid_operations from mod.rs: per goal kind,
filter the registry to operations whose matching effect kind targets the
goal, then drop those flagged by has_affect. Iterator find(..).is_some() is
modelled by List.find? followed by Option.isSome. -/
def GeneralProblemSolver.find_valid_operations (gps : GeneralProblemSolver)
    (goal : ConditionImpl) (cur : StateSet) (prot : ConditionSet) : List Operation :=
  match goal with
  | .contain _ =>
    ((gps.operations.filter (fun op =>
        (op.add_states.find? (fun st => st.name == goal.name)).isSome)).filter
      (fun op => !(op.has_affect cur prot)))
  | .notContain _ =>
    ((gps.operations.filter (fun op =>
        (op.remove_states.find? (fun sn => sn == goal.name)).isSome)).filter
      (fun op => !(op.has_affect cur prot)))
  | .compare _ _ _ _ =>
    ((gps.operations.filter (fun op =>
        (op.modify_states.find? (fun m => m.target_name == goal.state_name)).isSome)).filter
      (fun op => !(op.has_affect cur prot)))

/-- Outcome of one search call: None is search failure, Some carries the
resulting states and the accumulated operations. -/
abbrev SolveOutcome := Option (StateSet × List Operation)

/-- Result of one fueled search call: the outer None marks fuel exhaustion
(shown unreachable for the bound computed from the problem); otherwise the
outcome together with the goal stack and the protected-goal set as they
stand when the call returns. -/
abbrev StepResult := Option (SolveOutcome × List ConditionImpl × ConditionSet)

/-- The loop of solve_all over the unachieved goals: call the step (solve_one
at the previous fuel level) on each goal in order, abort on failure,
protect each achieved goal, thread states, stack and protections, and
concatenate the produced operation lists in application order. -/
def solveGoalsLoop
    (step : ConditionImpl → StateSet → List ConditionImpl → ConditionSet → StepResult) :
    List ConditionImpl → StateSet → List ConditionImpl → ConditionSet → StepResult
  | [], cur, stack, prot => some (some (cur, []), stack, prot)
  | g :: rest, cur, stack, prot =>
    match step g cur stack prot with
    | none => none
    | some (none, stack1, prot1) => some (none, stack1, prot1)
    | some (some (next, ops1), stack1, prot1) =>
      match solveGoalsLoop step rest next stack1 (prot1.insert g.state_name g) with
      | none => none
      | some (none, stack2, prot2) => some (none, stack2, prot2)
      | some (some (fin, ops2), stack2, prot2) => some (some (fin, ops1 ++ ops2), stack2, prot2)

/-- The loop of solve_one over the valid candidate operations: try each via
apply_operation (at the previous fuel level), returning the first success;
a failed attempt keeps its mutations of the protected-goal set. -/
def tryOpsLoop
    (applyOp : Operation → StateSet → List ConditionImpl → ConditionSet → StepResult) :
    List Operation → StateSet → List ConditionImpl → ConditionSet → StepResult
  | [], _, stack, prot => some (none, stack, prot)
  | op :: rest, cur, stack, prot =>
    match applyOp op cur stack prot with
    | none => none
    | some (some r, stack1, prot1) => some (some r, stack1, prot1)
    | some (none, stack1, prot1) => tryOpsLoop applyOp rest cur stack1 prot1

/-- The three mutually recursive solver methods at one fuel level. -/
structure SolverFns where
  all : List ConditionImpl → StateSet → List ConditionImpl → ConditionSet → StepResult
  one : ConditionImpl → StateSet → List ConditionImpl → ConditionSet → StepResult
  app : Operation → StateSet → List ConditionImpl → ConditionSet → StepResult

/-- Fuel level zero: only the recursion-free paths of each method are
available; any path that would recurse reports fuel exhaustion. -/
def solverBase (_gps : GeneralProblemSolver) : SolverFns where
  all := fun goals cur stack prot =>
    if cur.has_reached goals then some (some (cur, []), stack, prot) else none
  one := fun goal cur stack prot =>
    if goal.check cur then some (some (cur, []), stack, prot)
    else if stack.contains goal then some (none, stack, prot)
    else none
  app := fun _ _ _ _ => none

/-- One fuel level of the mutual recursion of mod.rs, built from the three
methods at the previous level.

all (solve_all): succeed immediately when the states already reach the
goals; otherwise protect the already-achieved goals, run the loop over the
unachieved ones, re-check every original goal against the final states, and
only on success drop this call's protections.

one (solve_one): succeed when the goal already holds; fail when the goal is
already on the goal stack (cycle guard); otherwise push the goal, try the
valid candidate operations in order, and pop the stack on every exit path.

app (apply_operation): solve the operation's prerequisites, then apply its
effects and append it to the plan. -/
def solverStep (gps : GeneralProblemSolver) (prev : SolverFns) : SolverFns where
  all := fun goals cur stack prot =>
    if cur.has_reached goals then some (some (cur, []), stack, prot)
    else
      let prot1 := (goals.filter (fun g => g.check cur)).foldl
        (fun p g => p.insert g.state_name g) prot
      let unachieved := goals.filter (fun g => !(g.check cur))
      match solveGoalsLoop prev.one unachieved cur stack prot1 with
      | none => none
      | some (none, stack1, prot2) => some (none, stack1, prot2)
      | some (some (fin, ops), stack1, prot2) =>
        if goals.all (fun c => c.check fin) then
          some (some (fin, ops), stack1,
            goals.foldl (fun p g => p.remove g.state_name g) prot2)
        else some (none, stack1, prot2)
  one := fun goal cur stack prot =>
    if goal.check cur then some (some (cur, []), stack, prot)
    else if stack.contains goal then some (none, stack, prot)
    else
      match tryOpsLoop prev.app (gps.find_valid_operations goal cur prot)
          cur (goal :: stack) prot with
      | none => none
      | some (res, stack1, prot1) => some (res, stack1.tail, prot1)
  app := fun op cur stack prot =>
    match prev.all op.prerequisites cur stack prot with
    | none => none
    | some (none, stack1, prot1) => some (none, stack1, prot1)
    | some (some (next, ops), stack1, prot1) =>
      some (some (op.apply next, ops ++ [op]), stack1, prot1)

/-- The solver methods at a given fuel level. -/
def solverAt (gps : GeneralProblemSolver) : Nat → SolverFns
  | 0 => solverBase gps
  | f + 1 => solverStep gps (solverAt gps f)

/-- solve_all at a given fuel level. -/
def solve_all (gps : GeneralProblemSolver) (fuel : Nat) :
    List ConditionImpl → StateSet → List ConditionImpl → ConditionSet → StepResult :=
  (solverAt gps fuel).all

/-- solve_one at a given fuel level. -/
def solve_one (gps : GeneralProblemSolver) (fuel : Nat) :
    ConditionImpl → StateSet → List ConditionImpl → ConditionSet → StepResult :=
  (solverAt gps fuel).one

/-- apply_operation at a given fuel level. -/
def apply_operation (gps : GeneralProblemSolver) (fuel : Nat) :
    Operation → StateSet → List ConditionImpl → ConditionSet → StepResult :=
  (solverAt gps fuel).app

/-- Every condition that can ever become a goal during one solve call: the
configured goal group together with the prerequisites of every registered
operation. -/
def GeneralProblemSolver.goalUniverse (gps : GeneralProblemSolver) : List ConditionImpl :=
  gps.goals ++ gps.operations.foldr (fun op acc => op.prerequisites ++ acc) []

/-- A recursion-depth bound sufficient for the whole search (three fuel
units per distinct pushable goal, plus one for the outermost call). -/
def GeneralProblemSolver.sufficientFuel (gps : GeneralProblemSolver) : Nat :=
  3 * gps.goalUniverse.dedup.length + 1

/-- GeneralProblemSolver::solve from mod.rs: run solve_all on the configured
goals from an empty goal stack and an empty protected-goal set and keep only
the operation list. The fuel is the provably sufficient depth bound. -/
def GeneralProblemSolver.solve (gps : GeneralProblemSolver) : Option (List Operation) :=
  match solve_all gps gps.sufficientFuel gps.goals gps.states [] ⟨[]⟩ with
  | some (some (_, ops), _, _) => some ops
  | _ => none

/-! ## General helper lemmas -/

/-- Two pointwise-equal predicates give the same any. -/
theorem any_ext {α : Type} (l : List α) (p q : α → Bool) (h : ∀ x, p x = q x) :
    l.any p = l.any q := congrArg l.any (funext h)

/-- A constantly false predicate gives a false any. -/
theorem any_false {α : Type} (l : List α) : l.any (fun _ => false) = false := by
  induction l with
  | nil => rfl
  | cons a t ih => simp [ih]

/-- find? followed by isSome is any. -/
theorem find?_isSome_eq_any {α : Type} (l : List α) (p : α → Bool) :
    (l.find? p).isSome = l.any p := by
  induction l with
  | nil => rfl
  | cons a t ih =>
    cases h : p a with
    | true => simp [List.find?_cons_of_pos, h]
    | false => simp [List.find?_cons_of_neg, h, ih]

/-! ## Claim C8: StateData equality and ordering laws -/

/-- Claim C8: StateData equality and ordering satisfy: Symbol equals Symbol;
Integer x equals Integer y exactly when x equals y; every Symbol/Integer
cross-variant pair is unequal and has no ordering (partial comparison yields
no result), so every relational Compare operator (greater, greaterEqual,
less, lessEqual) over a cross-variant pair is unsatisfied. -/
theorem c8_statedata_equality_ordering :
    (StateData.eqData .symbol .symbol = true)
    ∧ (∀ x y : Int, StateData.eqData (.integer x) (.integer y) = true ↔ x = y)
    ∧ (∀ x : Int,
        StateData.eqData .symbol (.integer x) = false
        ∧ StateData.eqData (.integer x) .symbol = false
        ∧ StateData.partialCmp .symbol (.integer x) = none
        ∧ StateData.partialCmp (.integer x) .symbol = none)
    ∧ (∀ (n sn : String) (x : Int) (v : StateData),
        (v = .integer x →
          ConditionImpl.checkData (.compare n sn .greater v) .symbol = false
          ∧ ConditionImpl.checkData (.compare n sn .greaterEqual v) .symbol = false
          ∧ ConditionImpl.checkData (.compare n sn .less v) .symbol = false
          ∧ ConditionImpl.checkData (.compare n sn .lessEqual v) .symbol = false)
        ∧ (v = .symbol →
          ConditionImpl.checkData (.compare n sn .greater v) (.integer x) = false
          ∧ ConditionImpl.checkData (.compare n sn .greaterEqual v) (.integer x) = false
          ∧ ConditionImpl.checkData (.compare n sn .less v) (.integer x) = false
          ∧ ConditionImpl.checkData (.compare n sn .lessEqual v) (.integer x) = false)) := by
  refine ⟨rfl, ?_, ?_, ?_⟩
  · intro x y
    simp [StateData.eqData]
  · intro x
    exact ⟨rfl, rfl, rfl, rfl⟩
  · intro n sn x v
    constructor
    · rintro rfl
      exact ⟨rfl, rfl, rfl, rfl⟩
    · rintro rfl
      exact ⟨rfl, rfl, rfl, rfl⟩

/-- Claim C8 witness: the hypotheses of the cross-variant clauses hold at a
concrete instance. -/
theorem c8_witness :
    ConditionImpl.checkData (.compare "id" "f" .less (.integer 3)) .symbol = false
    ∧ ConditionImpl.checkData (.compare "id" "f" .greater .symbol) (.integer 3) = false :=
  ⟨(c8_statedata_equality_ordering.2.2.2 "id" "f" 3 (.integer 3)).1 rfl |>.2.2.1,
   (c8_statedata_equality_ordering.2.2.2 "id" "f" 3 .symbol).2 rfl |>.1⟩

/-! ## Claim C5: condition checking -/

/-- Claim C5: for every condition and state set, check of a Contain condition
is true exactly when the named fact is present (any value); check of a
Compare condition is false when the named fact is absent and applies its
operator to the stored value when present; check of a NotContain condition
is true exactly when the fact is absent, bypassing the generic
lookup-then-test path (whose value test for NotContain is constantly
false). -/
theorem c5_check_dispatch :
    (∀ (n : String) (s : StateSet), ConditionImpl.check (.contain n) s = (s.get n).isSome)
    ∧ (∀ (n : String) (s : StateSet), ConditionImpl.check (.notContain n) s = (s.get n).isNone)
    ∧ (∀ (n : String) (s : StateSet), ConditionImpl.defaultCheck (.notContain n) s = false)
    ∧ (∀ (nm sn : String) (op : CompareOperator) (v : StateData) (s : StateSet),
        s.get nm = none → ConditionImpl.check (.compare nm sn op v) s = false)
    ∧ (∀ (nm sn : String) (op : CompareOperator) (v : StateData) (s : StateSet) (d : StateData),
        s.get nm = some d →
          ConditionImpl.check (.compare nm sn op v) s
            = ConditionImpl.checkData (.compare nm sn op v) d) := by
  refine ⟨?_, ?_, ?_, ?_, ?_⟩
  · intro n s
    cases h : s.get n <;>
      simp [ConditionImpl.check, ConditionImpl.defaultCheck, ConditionImpl.name,
        ConditionImpl.checkData, h]
  · intro n s
    rfl
  · intro n s
    cases h : s.get n <;>
      simp [ConditionImpl.defaultCheck, ConditionImpl.name, ConditionImpl.checkData, h]
  · intro nm sn op v s h
    simp [ConditionImpl.check, ConditionImpl.defaultCheck, ConditionImpl.name, h]
  · intro nm sn op v s d h
    simp [ConditionImpl.check, ConditionImpl.defaultCheck, ConditionImpl.name, h]

/-- Claim C5 witness: the Compare clauses applied at concrete inputs. -/
theorem c5_witness :
    (ConditionImpl.check (.compare "x" "x" .less (.integer 7)) ⟨[("x", .integer 5)]⟩
      = ConditionImpl.checkData (.compare "x" "x" .less (.integer 7)) (.integer 5))
    ∧ ConditionImpl.check (.compare "absent" "x" .less (.integer 7)) ⟨[("x", .integer 5)]⟩
      = false :=
  ⟨c5_check_dispatch.2.2.2.2 "x" "x" .less (.integer 7) ⟨[("x", .integer 5)]⟩ (.integer 5) rfl,
   c5_check_dispatch.2.2.2.1 "absent" "x" .less (.integer 7) ⟨[("x", .integer 5)]⟩ rfl⟩

/-! ## Claim C6: effect application order and absent-target modify -/

/-- The first phase of Operation::apply: insert every add-effect. -/
def applyAdds (adds : List State) (s : StateSet) : StateSet :=
  adds.foldl (fun acc st => acc.insert st) s

/-- The second phase of Operation::apply: delete every remove-effect. -/
def applyRemoves (removes : List String) (s : StateSet) : StateSet :=
  removes.foldl (fun acc n => acc.remove n) s

/-- The third phase of Operation::apply: run each modify-effect in place. -/
def applyModifies (mods : List Modification) (s : StateSet) : StateSet :=
  mods.foldl (fun acc m => acc.modifyValue m.target_name m.modification) s

/-- Lookup in a state set built by cons: test the head key first. -/
theorem get_cons (p : String × StateData) (t : List (String × StateData)) (n : String) :
    StateSet.get ⟨p :: t⟩ n = if p.1 == n then some p.2 else StateSet.get ⟨t⟩ n := by
  simp only [StateSet.get, List.find?_cons]
  cases hp : p.1 == n <;> simp [hp]

/-- A modify-effect whose target fact is absent leaves the state set
unchanged. -/
theorem modifyValue_absent (s : StateSet) (n : String) (f : StateData → StateData)
    (h : s.get n = none) : s.modifyValue n f = s := by
  obtain ⟨l⟩ := s
  cases hf : l.find? (fun p => p.1 == n) with
  | some a => simp [StateSet.get, hf] at h
  | none =>
    rw [List.find?_eq_none] at hf
    simp only [StateSet.modifyValue, StateSet.mk.injEq]
    have hmap : ∀ p ∈ l, (if p.1 == n then (p.1, f p.2) else p) = id p := by
      intro p hp
      have hne : (p.1 == n) = false := by
        have := hf p hp
        simp only [Bool.not_eq_true] at this
        exact this
      simp [hne]
    rw [List.map_congr_left hmap, List.map_id]

/-- A modify-effect whose target fact is present maps the stored value
through the modification function in place. -/
theorem modifyValue_present (s : StateSet) (n : String) (f : StateData → StateData)
    (d : StateData) (h : s.get n = some d) : (s.modifyValue n f).get n = some (f d) := by
  obtain ⟨l⟩ := s
  induction l with
  | nil => simp [StateSet.get] at h
  | cons p t ih =>
    rw [get_cons] at h
    cases hp : p.1 == n with
    | true =>
      rw [if_pos hp] at h
      injection h with hd
      have hm : (StateSet.mk (p :: t)).modifyValue n f
          = ⟨(p.1, f p.2) :: (t.map (fun q => if q.1 == n then (q.1, f q.2) else q))⟩ := by
        simp only [StateSet.modifyValue, List.map_cons, StateSet.mk.injEq, List.cons.injEq]
        exact ⟨by rw [if_pos hp], trivial⟩
      rw [hm, get_cons]
      simp [hp, hd]
    | false =>
      rw [if_neg (by simp [hp])] at h
      have htail := ih h
      have hm : (StateSet.mk (p :: t)).modifyValue n f
          = ⟨p :: (t.map (fun q => if q.1 == n then (q.1, f q.2) else q))⟩ := by
        simp only [StateSet.modifyValue, List.map_cons, StateSet.mk.injEq, List.cons.injEq]
        exact ⟨by rw [if_neg (by simp [hp])], trivial⟩
      rw [hm, get_cons]
      simp only [hp, Bool.false_eq_true, if_false]
      exact htail

/-- Claim C6: apply performs its effects in fixed order: first every
add-effect, then every remove-effect, then each modify-effect in place on a
present target; a modify-effect whose target is absent changes nothing (and
raises no error: modifyValue is total), while a present target is mapped
through the modification function in place. -/
theorem c6_apply_order_and_skip :
    (∀ (op : Operation) (s : StateSet),
      op.apply s = applyModifies op.modify_states
        (applyRemoves op.remove_states (applyAdds op.add_states s)))
    ∧ (∀ (s : StateSet) (n : String) (f : StateData → StateData),
        s.get n = none → s.modifyValue n f = s)
    ∧ (∀ (s : StateSet) (n : String) (f : StateData → StateData) (d : StateData),
        s.get n = some d → (s.modifyValue n f).get n = some (f d)) :=
  ⟨fun _ _ => rfl, modifyValue_absent, modifyValue_present⟩

/-- Claim C6 witness: the absent-target and present-target clauses at
concrete inputs. -/
theorem c6_witness :
    ((⟨[("a", .symbol)]⟩ : StateSet).modifyValue "b" (fun _ => .integer 1)
      = ⟨[("a", .symbol)]⟩)
    ∧ ((⟨[("a", .integer 2)]⟩ : StateSet).modifyValue "a" (fun _ => .integer 1)).get "a"
      = some (.integer 1) :=
  ⟨c6_apply_order_and_skip.2.1 ⟨[("a", .symbol)]⟩ "b" (fun _ => .integer 1) rfl,
   c6_apply_order_and_skip.2.2 ⟨[("a", .integer 2)]⟩ "a" (fun _ => .integer 1) (.integer 2) rfl⟩

/-! ## Claim C2: interference analysis (has_affect) -/

/-- Congruence for the boolean or of two pairs of equal values. -/
theorem orCongr (a b c d : Bool) (h1 : a = c) (h2 : b = d) : (a || b) = (c || d) := by
  rw [h1, h2]

/-- Two pointwise-equal predicates give the same filter. -/
theorem filter_ext {α : Type} (l : List α) (p q : α → Bool) (h : ∀ x, p x = q x) :
    l.filter p = l.filter q := congrArg (fun pr => l.filter pr) (funext h)

/-- Spec wording: fact f has an active NotContain protection. -/
def activeNotContain (prot : ConditionSet) (f : String) : Bool :=
  match prot.get f with
  | none => false
  | some conds => conds.any (fun c =>
      match c with
      | .notContain n => n == f
      | _ => false)

/-- Spec wording: fact f has an active Contain or Compare protection. -/
def activeContainOrCompare (prot : ConditionSet) (f : String) : Bool :=
  match prot.get f with
  | none => false
  | some conds => conds.any (fun c =>
      match c with
      | .contain n => n == f
      | .compare _ sn _ _ => sn == f
      | _ => false)

/-- The claim's modify clause, as stated: simulating the modification
against a copy of the current value of the target fact fails an active
Compare protection on that fact, with only Compare protections
participating. -/
def specModifyClause (prot : ConditionSet) (cur : StateSet) (m : Modification) : Bool :=
  match cur.get m.target_name with
  | none => false
  | some d =>
    match prot.get m.target_name with
    | none => false
    | some conds => conds.any (fun c =>
        match c with
        | .compare _ _ _ _ => !(c.checkData (m.modification d))
        | _ => false)

/-- The interference predicate exactly as claim C2 states it. -/
def specInterferes (op : Operation) (cur : StateSet) (prot : ConditionSet) : Bool :=
  op.add_states.any (fun st => activeNotContain prot st.name)
  || op.remove_states.any (fun n => activeContainOrCompare prot n)
  || op.modify_states.any (fun m => specModifyClause prot cur m)

/-- The amended modify clause: the simulated value is tested against the
value test of every active protection on the fact, whatever its kind
(Compare by its operator, NotContain constantly false, Contain constantly
true). -/
def amendedModifyClause (prot : ConditionSet) (cur : StateSet) (m : Modification) : Bool :=
  match cur.get m.target_name with
  | none => false
  | some d =>
    match prot.get m.target_name with
    | none => false
    | some conds => conds.any (fun c => !(c.checkData (m.modification d)))

/-- The amended interference predicate. -/
def amendedInterferes (op : Operation) (cur : StateSet) (prot : ConditionSet) : Bool :=
  op.add_states.any (fun st => activeNotContain prot st.name)
  || op.remove_states.any (fun n => activeContainOrCompare prot n)
  || op.modify_states.any (fun m => amendedModifyClause prot cur m)

/-- An operation with a single modify-effect (the identity function) on fact
f, no other effects and no prerequisites. -/
def identityModifyOp : Operation :=
  { name := "modify-f", prerequisites := [], add_states := [], remove_states := [],
    modify_states := [⟨"f", fun d => d⟩] }

/-- A state set in which fact f is present. -/
def fPresent : StateSet := ⟨[("f", .symbol)]⟩

/-- A protected-condition index holding a NotContain protection on f. -/
def fNotContainProt : ConditionSet := ⟨[("f", [.notContain "f"])]⟩

/-- Claim C2 counterexample: a modify-effect on a present fact that carries
only a NotContain protection is flagged by has_affect (NotContain's value
test is constantly false), yet the claim's predicate, in which only Compare
protections participate in the modify case, is false there. So has_affect
is not exactly the claim's predicate. -/
theorem c2_counterexample :
    identityModifyOp.has_affect fPresent fNotContainProt = true
    ∧ specInterferes identityModifyOp fPresent fNotContainProt = false :=
  ⟨rfl, rfl⟩

/-- Claim C2 (amended): has_affect is exactly the claim's predicate with the
modify clause widened from Compare protections to all active protections'
value tests: an add-effect's fact with an active NotContain protection, or
a remove-effect's fact with an active Contain or Compare protection, or a
modify-effect whose simulated value (computed from a copy of the current
value of its target fact) fails the value test of some active protection on
that fact. -/
theorem c2_has_affect_amended (op : Operation) (cur : StateSet) (prot : ConditionSet) :
    op.has_affect cur prot = amendedInterferes op cur prot := by
  unfold Operation.has_affect amendedInterferes
  refine orCongr _ _ _ _ (orCongr _ _ _ _ ?_ ?_) ?_
  · refine congrArg (fun k => op.add_states.any k) (funext fun st => ?_)
    unfold activeNotContain
    cases hg : prot.get st.name with
    | none => rfl
    | some conds =>
      refine congrArg (fun k => conds.any k) (funext fun cond => ?_)
      cases cond <;> simp [ConditionImpl.state_name]
  · refine congrArg (fun k => op.remove_states.any k) (funext fun sn => ?_)
    unfold activeContainOrCompare
    cases hg : prot.get sn with
    | none => rfl
    | some conds =>
      refine congrArg (fun k => conds.any k) (funext fun cond => ?_)
      cases cond <;> simp [ConditionImpl.state_name]
  · refine congrArg (fun k => op.modify_states.any k) (funext fun m => ?_)
    unfold amendedModifyClause
    cases hg : prot.get m.target_name with
    | none =>
      cases hc : cur.get m.target_name <;> rfl
    | some conds =>
      cases hc : cur.get m.target_name with
      | none => exact any_false conds
      | some d => rfl

/-! ## Claim C3: candidate selection -/

/-- Spec wording: the operation's effect kind matches the goal's kind on the
goal's fact: an add-effect for a Contain goal, a remove-effect for a
NotContain goal, a modify-effect on target_name for a Compare goal. -/
def matchesGoalKind (goal : ConditionImpl) (op : Operation) : Bool :=
  match goal with
  | .contain _ => op.add_states.any (fun st => st.name == goal.name)
  | .notContain _ => op.remove_states.any (fun n => n == goal.name)
  | .compare _ _ _ _ => op.modify_states.any (fun m => m.target_name == goal.state_name)

/-- The add-10 operation of the candidate-ordering scenario. -/
def add10 : Operation :=
  { name := "add-10", prerequisites := [], add_states := [], remove_states := [],
    modify_states := [⟨"value", fun d => match d with
      | .symbol => .integer 0
      | .integer x => .integer (x + 10)⟩] }

/-- The add-50 operation of the candidate-ordering scenario. -/
def add50 : Operation :=
  { name := "add-50", prerequisites := [], add_states := [], remove_states := [],
    modify_states := [⟨"value", fun d => match d with
      | .symbol => .integer 0
      | .integer x => .integer (x + 50)⟩] }

/-- The goal Compare(less-than-20, value, Less, 20). -/
def lessThan20Goal : ConditionImpl := .compare "less-than-20" "value" .less (.integer 20)

/-- The candidate-ordering scenario solver: operations add-10 then add-50 in
registration order, the Compare goal, state with value 0. -/
def orderingScenario : GeneralProblemSolver :=
  ⟨[add10, add50], [lessThan20Goal], ⟨[("value", .integer 0)]⟩⟩

/-- Claim C3: find_valid_operations returns, in registration order, exactly
the operations whose effect kind matches the goal's kind on the goal's fact
minus those flagged by has_affect; in the candidate-ordering scenario (with
no protection active) it returns exactly the two modifying operations in
registration order, and solve_one on that goal commits to add-10 first (a
successful search whose plan is exactly add-10). -/
theorem c3_find_valid_operations :
    (∀ (gps : GeneralProblemSolver) (goal : ConditionImpl) (cur : StateSet)
        (prot : ConditionSet),
      gps.find_valid_operations goal cur prot
        = gps.operations.filter
            (fun op => matchesGoalKind goal op && !(op.has_affect cur prot)))
    ∧ (orderingScenario.find_valid_operations lessThan20Goal orderingScenario.states ⟨[]⟩
        = [add10, add50])
    ∧ (solve_one orderingScenario orderingScenario.sufficientFuel lessThan20Goal
        orderingScenario.states [] ⟨[]⟩
        = some (some (⟨[("value", .integer 10)]⟩, [add10]), [], ⟨[]⟩)) := by
  refine ⟨?_, rfl, rfl⟩
  intro gps goal cur prot
  cases goal with
  | contain n =>
    simp only [GeneralProblemSolver.find_valid_operations]
    rw [List.filter_filter]
    exact filter_ext _ _ _ (fun op => by
      simp [matchesGoalKind, find?_isSome_eq_any, Bool.and_comm])
  | notContain n =>
    simp only [GeneralProblemSolver.find_valid_operations]
    rw [List.filter_filter]
    exact filter_ext _ _ _ (fun op => by
      simp [matchesGoalKind, find?_isSome_eq_any, Bool.and_comm])
  | compare nm sn o v =>
    simp only [GeneralProblemSolver.find_valid_operations]
    rw [List.filter_filter]
    exact filter_ext _ _ _ (fun op => by
      simp [matchesGoalKind, find?_isSome_eq_any, Bool.and_comm])

/-! ## Unfolding equations for the fueled solver -/

/-- solve_all at fuel zero. -/
theorem solve_all_zero (gps : GeneralProblemSolver) (goals : List ConditionImpl)
    (cur : StateSet) (stack : List ConditionImpl) (prot : ConditionSet) :
    solve_all gps 0 goals cur stack prot
      = if cur.has_reached goals then some (some (cur, []), stack, prot) else none := rfl

/-- solve_all at successor fuel. -/
theorem solve_all_succ (gps : GeneralProblemSolver) (f : Nat) (goals : List ConditionImpl)
    (cur : StateSet) (stack : List ConditionImpl) (prot : ConditionSet) :
    solve_all gps (f + 1) goals cur stack prot
      = if cur.has_reached goals then some (some (cur, []), stack, prot)
        else
          match solveGoalsLoop (solve_one gps f) (goals.filter (fun g => !(g.check cur))) cur
              stack
              ((goals.filter (fun g => g.check cur)).foldl
                (fun p g => p.insert g.state_name g) prot) with
          | none => none
          | some (none, stack1, prot2) => some (none, stack1, prot2)
          | some (some (fin, ops), stack1, prot2) =>
            if goals.all (fun c => c.check fin) then
              some (some (fin, ops), stack1,
                goals.foldl (fun p g => p.remove g.state_name g) prot2)
            else some (none, stack1, prot2) := rfl

/-- solve_one at fuel zero. -/
theorem solve_one_zero (gps : GeneralProblemSolver) (goal : ConditionImpl) (cur : StateSet)
    (stack : List ConditionImpl) (prot : ConditionSet) :
    solve_one gps 0 goal cur stack prot
      = if goal.check cur then some (some (cur, []), stack, prot)
        else if stack.contains goal then some (none, stack, prot)
        else none := rfl

/-- solve_one at successor fuel. -/
theorem solve_one_succ (gps : GeneralProblemSolver) (f : Nat) (goal : ConditionImpl)
    (cur : StateSet) (stack : List ConditionImpl) (prot : ConditionSet) :
    solve_one gps (f + 1) goal cur stack prot
      = if goal.check cur then some (some (cur, []), stack, prot)
        else if stack.contains goal then some (none, stack, prot)
        else
          match tryOpsLoop (apply_operation gps f) (gps.find_valid_operations goal cur prot)
              cur (goal :: stack) prot with
          | none => none
          | some (res, stack1, prot1) => some (res, stack1.tail, prot1) := rfl

/-- apply_operation at fuel zero. -/
theorem apply_operation_zero (gps : GeneralProblemSolver) (op : Operation) (cur : StateSet)
    (stack : List ConditionImpl) (prot : ConditionSet) :
    apply_operation gps 0 op cur stack prot = none := rfl

/-- apply_operation at successor fuel. -/
theorem apply_operation_succ (gps : GeneralProblemSolver) (f : Nat) (op : Operation)
    (cur : StateSet) (stack : List ConditionImpl) (prot : ConditionSet) :
    apply_operation gps (f + 1) op cur stack prot
      = match solve_all gps f op.prerequisites cur stack prot with
        | none => none
        | some (none, stack1, prot1) => some (none, stack1, prot1)
        | some (some (next, ops), stack1, prot1) =>
          some (some (op.apply next, ops ++ [op]), stack1, prot1) := rfl

/-! ## Goal-stack preservation -/

/-- If the step function preserves the goal stack on every returned result,
so does the loop over a goal group. -/
theorem solveGoalsLoop_stack
    (step : ConditionImpl → StateSet → List ConditionImpl → ConditionSet → StepResult)
    (hstep : ∀ g cur stack prot res stack' prot',
      step g cur stack prot = some (res, stack', prot') → stack' = stack) :
    ∀ (goals : List ConditionImpl) (cur : StateSet) (stack : List ConditionImpl)
      (prot : ConditionSet) (res : SolveOutcome) (stack' : List ConditionImpl)
      (prot' : ConditionSet),
      solveGoalsLoop step goals cur stack prot = some (res, stack', prot') → stack' = stack := by
  intro goals
  induction goals with
  | nil =>
    intro cur stack prot res stack' prot' h
    simp only [solveGoalsLoop, Option.some.injEq, Prod.mk.injEq] at h
    exact h.2.1.symm
  | cons g rest ih =>
    intro cur stack prot res stack' prot' h
    simp only [solveGoalsLoop] at h
    cases hs : step g cur stack prot with
    | none => simp [hs] at h
    | some trip =>
      obtain ⟨r1, stack1, prot1⟩ := trip
      have hst1 : stack1 = stack := hstep _ _ _ _ _ _ _ hs
      simp only [hs] at h
      cases r1 with
      | none =>
        simp only [Option.some.injEq, Prod.mk.injEq] at h
        exact h.2.1.symm.trans hst1
      | some pr =>
        obtain ⟨next, ops1⟩ := pr
        cases hrec : solveGoalsLoop step rest next stack1 (prot1.insert g.state_name g) with
        | none => simp [hrec] at h
        | some trip2 =>
          obtain ⟨r2, stack2, prot2⟩ := trip2
          have hst2 : stack2 = stack1 := ih _ _ _ _ _ _ hrec
          simp only [hrec] at h
          cases r2 with
          | none =>
            simp only [Option.some.injEq, Prod.mk.injEq] at h
            exact h.2.1.symm.trans (hst2.trans hst1)
          | some pr2 =>
            obtain ⟨fin, ops2⟩ := pr2
            simp only [Option.some.injEq, Prod.mk.injEq] at h
            exact h.2.1.symm.trans (hst2.trans hst1)

/-- If the candidate application preserves the goal stack on every returned
result, so does the loop over the candidate operations. -/
theorem tryOpsLoop_stack
    (applyOp : Operation → StateSet → List ConditionImpl → ConditionSet → StepResult)
    (happ : ∀ op cur stack prot res stack' prot',
      applyOp op cur stack prot = some (res, stack', prot') → stack' = stack) :
    ∀ (ops : List Operation) (cur : StateSet) (stack : List ConditionImpl)
      (prot : ConditionSet) (res : SolveOutcome) (stack' : List ConditionImpl)
      (prot' : ConditionSet),
      tryOpsLoop applyOp ops cur stack prot = some (res, stack', prot') → stack' = stack := by
  intro ops
  induction ops with
  | nil =>
    intro cur stack prot res stack' prot' h
    simp only [tryOpsLoop, Option.some.injEq, Prod.mk.injEq] at h
    exact h.2.1.symm
  | cons op rest ih =>
    intro cur stack prot res stack' prot' h
    simp only [tryOpsLoop] at h
    cases ha : applyOp op cur stack prot with
    | none => simp [ha] at h
    | some trip =>
      obtain ⟨r1, stack1, prot1⟩ := trip
      have hst1 : stack1 = stack := happ _ _ _ _ _ _ _ ha
      simp only [ha] at h
      cases r1 with
      | none =>
        have := ih _ _ _ _ _ _ h
        exact this.trans hst1
      | some pr =>
        simp only [Option.some.injEq, Prod.mk.injEq] at h
        exact h.2.1.symm.trans hst1

/-- Every solver method returns with the goal stack equal to its entry
value, at every fuel level. -/
theorem stackPreserved (gps : GeneralProblemSolver) :
    ∀ fuel : Nat,
      (∀ goals cur stack prot res stack' prot',
        solve_all gps fuel goals cur stack prot = some (res, stack', prot') → stack' = stack)
      ∧ (∀ goal cur stack prot res stack' prot',
        solve_one gps fuel goal cur stack prot = some (res, stack', prot') → stack' = stack)
      ∧ (∀ op cur stack prot res stack' prot',
        apply_operation gps fuel op cur stack prot = some (res, stack', prot') → stack' = stack) := by
  intro fuel
  induction fuel with
  | zero =>
    refine ⟨?_, ?_, ?_⟩
    · intro goals cur stack prot res stack' prot' h
      rw [solve_all_zero] at h
      split at h
      · simp only [Option.some.injEq, Prod.mk.injEq] at h
        exact h.2.1.symm
      · exact absurd h (by simp)
    · intro goal cur stack prot res stack' prot' h
      rw [solve_one_zero] at h
      split at h
      · simp only [Option.some.injEq, Prod.mk.injEq] at h
        exact h.2.1.symm
      split at h
      · simp only [Option.some.injEq, Prod.mk.injEq] at h
        exact h.2.1.symm
      · exact absurd h (by simp)
    · intro op cur stack prot res stack' prot' h
      rw [apply_operation_zero] at h
      exact absurd h (by simp)
  | succ f ih =>
    obtain ⟨ihall, ihone, ihapp⟩ := ih
    refine ⟨?_, ?_, ?_⟩
    · intro goals cur stack prot res stack' prot' h
      rw [solve_all_succ] at h
      split at h
      · simp only [Option.some.injEq, Prod.mk.injEq] at h
        exact h.2.1.symm
      · split at h
        · simp at h
        · rename_i stack1 prot2 heq
          have hst1 : stack1 = stack := solveGoalsLoop_stack _ ihone _ _ _ _ _ _ _ heq
          simp only [Option.some.injEq, Prod.mk.injEq] at h
          exact h.2.1.symm.trans hst1
        · rename_i fin ops stack1 prot2 heq
          have hst1 : stack1 = stack := solveGoalsLoop_stack _ ihone _ _ _ _ _ _ _ heq
          split at h <;>
            (simp only [Option.some.injEq, Prod.mk.injEq] at h
             exact h.2.1.symm.trans hst1)
    · intro goal cur stack prot res stack' prot' h
      rw [solve_one_succ] at h
      split at h
      · simp only [Option.some.injEq, Prod.mk.injEq] at h
        exact h.2.1.symm
      split at h
      · simp only [Option.some.injEq, Prod.mk.injEq] at h
        exact h.2.1.symm
      · split at h
        · simp at h
        · rename_i r stack1 prot1 heq
          have hst1 : stack1 = goal :: stack := tryOpsLoop_stack _ ihapp _ _ _ _ _ _ _ heq
          simp only [Option.some.injEq, Prod.mk.injEq] at h
          have hts : stack' = stack1.tail := h.2.1.symm
          rw [hts, hst1]
          rfl
    · intro op cur stack prot res stack' prot' h
      rw [apply_operation_succ] at h
      split at h
      · simp at h
      · rename_i stack1 prot1 heq
        have hst1 : stack1 = stack := ihall _ _ _ _ _ _ _ heq
        simp only [Option.some.injEq, Prod.mk.injEq] at h
        exact h.2.1.symm.trans hst1
      · rename_i next ops stack1 prot1 heq
        have hst1 : stack1 = stack := ihall _ _ _ _ _ _ _ heq
        simp only [Option.some.injEq, Prod.mk.injEq] at h
        exact h.2.1.symm.trans hst1

/-! ## Fuel sufficiency: the recursion depth bound is never exhausted -/

/-- The number of conditions of the goal universe not yet on the goal
stack: pushes strictly decrease it, which bounds the recursion depth. -/
def remainingGoals (gps : GeneralProblemSolver) (stack : List ConditionImpl) : Nat :=
  ((gps.goalUniverse.dedup).filter (fun c => !(stack.contains c))).length

/-- Boolean contains agrees with membership for conditions. -/
theorem contains_iff_mem (stack : List ConditionImpl) (g : ConditionImpl) :
    stack.contains g = true ↔ g ∈ stack := by
  simp [List.contains]

/-- Boolean contains is false exactly on non-members. -/
theorem contains_false_iff (stack : List ConditionImpl) (g : ConditionImpl) :
    stack.contains g = false ↔ g ∉ stack := by
  rw [← contains_iff_mem]
  cases stack.contains g <;> simp

/-- With an empty goal stack, every universe condition remains. -/
theorem remainingGoals_nil (gps : GeneralProblemSolver) :
    remainingGoals gps [] = gps.goalUniverse.dedup.length := by
  unfold remainingGoals
  rw [filter_ext (gps.goalUniverse.dedup) (fun c => !(([] : List ConditionImpl).contains c))
    (fun _ => true) (fun c => rfl), List.filter_true]

/-- A universe condition not on the stack witnesses a positive remainder. -/
theorem remainingGoals_pos (gps : GeneralProblemSolver) (stack : List ConditionImpl)
    (g : ConditionImpl) (hU : g ∈ gps.goalUniverse) (hs : g ∉ stack) :
    0 < remainingGoals gps stack := by
  unfold remainingGoals
  refine List.length_pos_of_mem (List.mem_filter.mpr ⟨List.mem_dedup.mpr hU, ?_⟩)
  rw [(contains_false_iff stack g).mpr hs]
  rfl

/-- Pushing a universe condition not yet on the stack strictly decreases the
remainder. -/
theorem remainingGoals_cons_lt (gps : GeneralProblemSolver) (g : ConditionImpl)
    (stack : List ConditionImpl) (hU : g ∈ gps.goalUniverse) (hs : g ∉ stack) :
    remainingGoals gps (g :: stack) < remainingGoals gps stack := by
  unfold remainingGoals
  have hsplit : (gps.goalUniverse.dedup).filter (fun c => !((g :: stack).contains c))
      = ((gps.goalUniverse.dedup).filter (fun c => !(stack.contains c))).filter
          (fun c => !(c == g)) := by
    rw [List.filter_filter]
    refine filter_ext _ _ _ (fun c => ?_)
    rw [List.contains_cons, Bool.not_or]
  rw [hsplit]
  refine List.length_filter_lt_length_iff_exists.mpr
    ⟨g, List.mem_filter.mpr ⟨List.mem_dedup.mpr hU, ?_⟩, by simp⟩
  rw [(contains_false_iff stack g).mpr hs]
  rfl

/-- Every candidate returned by find_valid_operations is a registered
operation. -/
theorem find_valid_operations_subset (gps : GeneralProblemSolver) (goal : ConditionImpl)
    (cur : StateSet) (prot : ConditionSet) :
    ∀ op ∈ gps.find_valid_operations goal cur prot, op ∈ gps.operations := by
  intro op h
  cases goal <;>
    (simp only [GeneralProblemSolver.find_valid_operations] at h
     exact (List.mem_filter.mp (List.mem_filter.mp h).1).1)

/-- A prerequisite of a member operation lies in the folded prerequisite
list. -/
theorem mem_foldr_prereqs (ops : List Operation) (op : Operation) (g : ConditionImpl)
    (hop : op ∈ ops) (hg : g ∈ op.prerequisites) :
    g ∈ ops.foldr (fun o acc => o.prerequisites ++ acc) [] := by
  induction ops with
  | nil => cases hop
  | cons o rest ih =>
    show g ∈ o.prerequisites ++ rest.foldr (fun o acc => o.prerequisites ++ acc) []
    rcases List.mem_cons.mp hop with h | h
    · subst h
      exact List.mem_append_left _ hg
    · exact List.mem_append_right _ (ih h)

/-- Configured goals lie in the goal universe. -/
theorem mem_goalUniverse_of_goal (gps : GeneralProblemSolver) (g : ConditionImpl)
    (h : g ∈ gps.goals) : g ∈ gps.goalUniverse :=
  List.mem_append_left _ h

/-- Prerequisites of registered operations lie in the goal universe. -/
theorem mem_goalUniverse_of_prereq (gps : GeneralProblemSolver) (op : Operation)
    (g : ConditionImpl) (hop : op ∈ gps.operations) (hg : g ∈ op.prerequisites) :
    g ∈ gps.goalUniverse :=
  List.mem_append_right _ (mem_foldr_prereqs gps.operations op g hop hg)

/-- The goal-group loop never exhausts fuel when no individual step does
(with the step preserving the goal stack). -/
theorem solveGoalsLoop_ne_none
    (step : ConditionImpl → StateSet → List ConditionImpl → ConditionSet → StepResult)
    (stack : List ConditionImpl)
    (hpres : ∀ g cur stack0 prot res stack' prot',
      step g cur stack0 prot = some (res, stack', prot') → stack' = stack0) :
    ∀ (goals : List ConditionImpl),
      (∀ g ∈ goals, ∀ cur prot, step g cur stack prot ≠ none) →
      ∀ cur prot, solveGoalsLoop step goals cur stack prot ≠ none := by
  intro goals
  induction goals with
  | nil =>
    intro _ cur prot h
    simp [solveGoalsLoop] at h
  | cons g rest ih =>
    intro hne cur prot h
    simp only [solveGoalsLoop] at h
    split at h
    · rename_i heq
      exact hne g (List.mem_cons_self g rest) cur prot heq
    · simp at h
    · rename_i next ops1 stack1 prot1 heq
      have hst : stack1 = stack := hpres _ _ _ _ _ _ _ heq
      subst hst
      split at h
      · rename_i heq2
        exact ih (fun g' hg' cur' prot' =>
          hne g' (List.mem_cons_of_mem _ hg') cur' prot') next
          (prot1.insert g.state_name g) heq2
      · simp at h
      · simp at h

/-- The candidate loop never exhausts fuel when no individual application
does (with the application preserving the goal stack). -/
theorem tryOpsLoop_ne_none
    (applyOp : Operation → StateSet → List ConditionImpl → ConditionSet → StepResult)
    (stack : List ConditionImpl)
    (hpres : ∀ op cur stack0 prot res stack' prot',
      applyOp op cur stack0 prot = some (res, stack', prot') → stack' = stack0) :
    ∀ (ops : List Operation),
      (∀ op ∈ ops, ∀ cur prot, applyOp op cur stack prot ≠ none) →
      ∀ cur prot, tryOpsLoop applyOp ops cur stack prot ≠ none := by
  intro ops
  induction ops with
  | nil =>
    intro _ cur prot h
    simp [tryOpsLoop] at h
  | cons op rest ih =>
    intro hne cur prot h
    simp only [tryOpsLoop] at h
    split at h
    · rename_i heq
      exact hne op (List.mem_cons_self op rest) cur prot heq
    · simp at h
    · rename_i r stack1 prot1 heq
      have hst : stack1 = stack := hpres _ _ _ _ _ _ _ heq
      subst hst
      exact ih (fun o ho cur' prot' => hne o (List.mem_cons_of_mem _ ho) cur' prot')
        cur prot1 h

/-- The master fuel-sufficiency induction: with fuel at least three times
the remaining universe conditions (plus the method-specific offset), no
solver method exhausts its fuel. -/
theorem fuelSufficient (gps : GeneralProblemSolver) :
    ∀ fuel : Nat,
      (∀ goals cur stack prot, (∀ g ∈ goals, g ∈ gps.goalUniverse) →
        3 * remainingGoals gps stack + 1 ≤ fuel →
        solve_all gps fuel goals cur stack prot ≠ none)
      ∧ (∀ goal cur stack prot, goal ∈ gps.goalUniverse →
        3 * remainingGoals gps stack ≤ fuel →
        solve_one gps fuel goal cur stack prot ≠ none)
      ∧ (∀ op cur stack prot, op ∈ gps.operations →
        3 * remainingGoals gps stack + 2 ≤ fuel →
        apply_operation gps fuel op cur stack prot ≠ none) := by
  intro fuel
  induction fuel with
  | zero =>
    refine ⟨?_, ?_, ?_⟩
    · intro goals cur stack prot hU hb
      exact absurd hb (by omega)
    · intro goal cur stack prot hU hb h
      rw [solve_one_zero] at h
      split at h
      · simp at h
      split at h
      · simp at h
      · rename_i h1 h2
        have hcf : stack.contains goal = false := by
          cases hcb : stack.contains goal
          · rfl
          · exact absurd hcb h2
        have hmem : goal ∉ stack := (contains_false_iff stack goal).mp hcf
        have hpos := remainingGoals_pos gps stack goal hU hmem
        omega
    · intro op cur stack prot hop hb
      exact absurd hb (by omega)
  | succ f ih =>
    obtain ⟨ihall, ihone, ihapp⟩ := ih
    refine ⟨?_, ?_, ?_⟩
    · intro goals cur stack prot hU hb h
      rw [solve_all_succ] at h
      split at h
      · simp at h
      · split at h
        · rename_i heq
          refine solveGoalsLoop_ne_none (solve_one gps f) stack
            (fun g' cur' stack' prot' res s p hh =>
              (stackPreserved gps f).2.1 g' cur' stack' prot' res s p hh)
            (goals.filter (fun g => !(g.check cur)))
            (fun g' hg' cur' prot' =>
              ihone g' cur' stack prot' (hU g' (List.mem_filter.mp hg').1) (by omega))
            cur _ heq
        · simp at h
        · split at h <;> simp at h
    · intro goal cur stack prot hU hb h
      rw [solve_one_succ] at h
      split at h
      · simp at h
      split at h
      · simp at h
      · rename_i h1 h2
        have hcf : stack.contains goal = false := by
          cases hcb : stack.contains goal
          · rfl
          · exact absurd hcb h2
        have hmem : goal ∉ stack := (contains_false_iff stack goal).mp hcf
        have hlt := remainingGoals_cons_lt gps goal stack hU hmem
        split at h
        · rename_i heq
          refine tryOpsLoop_ne_none (apply_operation gps f) (goal :: stack)
            (fun op' cur' stack' prot' res s p hh =>
              (stackPreserved gps f).2.2 op' cur' stack' prot' res s p hh)
            (gps.find_valid_operations goal cur prot)
            (fun op' hop' cur' prot' =>
              ihapp op' cur' (goal :: stack) prot'
                (find_valid_operations_subset gps goal cur prot op' hop') (by omega))
            cur prot heq
        · simp at h
    · intro op cur stack prot hop hb h
      rw [apply_operation_succ] at h
      split at h
      · rename_i heq
        exact ihall op.prerequisites cur stack prot
          (fun g hg => mem_goalUniverse_of_prereq gps op g hop hg) (by omega) heq
      · simp at h
      · simp at h

/-! ## Claims about the search algorithm -/

/-- solve_all returns immediately with no actions when the states already
reach the goals, at any fuel level. -/
theorem solve_all_reached (gps : GeneralProblemSolver) (fuel : Nat)
    (goals : List ConditionImpl) (cur : StateSet) (stack : List ConditionImpl)
    (prot : ConditionSet) (h : cur.has_reached goals = true) :
    solve_all gps fuel goals cur stack prot = some (some (cur, []), stack, prot) := by
  cases fuel with
  | zero => rw [solve_all_zero, if_pos h]
  | succ f => rw [solve_all_succ, if_pos h]

/-- Claim C1: whenever solve_all returns success, every goal of the goal
group it was called with holds in the returned final state (goals already
true at entry included); equivalently, if any original goal fails in the
final state the call cannot have returned success. -/
theorem c1_solve_all_success_goals_hold (gps : GeneralProblemSolver) (fuel : Nat)
    (goals : List ConditionImpl) (cur : StateSet) (stack : List ConditionImpl)
    (prot : ConditionSet) (fin : StateSet) (ops : List Operation)
    (stack' : List ConditionImpl) (prot' : ConditionSet)
    (h : solve_all gps fuel goals cur stack prot = some (some (fin, ops), stack', prot')) :
    ∀ g ∈ goals, g.check fin = true := by
  have hreach : ∀ (cur0 : StateSet), cur0.has_reached goals = true →
      ∀ g ∈ goals, g.check cur0 = true := fun cur0 hr => List.all_eq_true.mp hr
  cases fuel with
  | zero =>
    rw [solve_all_zero] at h
    split at h
    · rename_i hr
      simp only [Option.some.injEq, Prod.mk.injEq] at h
      obtain ⟨⟨hfin, hops⟩, _, _⟩ := h
      subst hfin
      exact hreach cur hr
    · exact absurd h (by simp)
  | succ f =>
    rw [solve_all_succ] at h
    split at h
    · rename_i hr
      simp only [Option.some.injEq, Prod.mk.injEq] at h
      obtain ⟨⟨hfin, hops⟩, _, _⟩ := h
      subst hfin
      exact hreach cur hr
    · split at h
      · simp at h
      · simp at h
      · rename_i fin0 ops0 stack1 prot2 heq
        split at h
        · rename_i hall
          simp only [Option.some.injEq, Prod.mk.injEq] at h
          obtain ⟨⟨hfin, hops⟩, _, _⟩ := h
          subst hfin
          exact List.all_eq_true.mp hall
        · simp at h

/-- A solver with no operations, no goals and an empty state set. -/
def emptyGPS : GeneralProblemSolver := ⟨[], [], ⟨[]⟩⟩

/-- Claim C1 witness: a successful solve_all call at a concrete input, and
the conclusion obtained from it. -/
theorem c1_witness :
    (solve_all emptyGPS 0 [.contain "a"] ⟨[("a", .symbol)]⟩ [] ⟨[]⟩
      = some (some (⟨[("a", .symbol)]⟩, []), [], ⟨[]⟩))
    ∧ (ConditionImpl.contain "a").check ⟨[("a", .symbol)]⟩ = true :=
  ⟨rfl, c1_solve_all_success_goals_hold emptyGPS 0 [.contain "a"] ⟨[("a", .symbol)]⟩ [] ⟨[]⟩
    ⟨[("a", .symbol)]⟩ [] [] ⟨[]⟩ rfl (.contain "a") (by simp)⟩

/-- Claim C4: the search terminates on every input: with the fuel bound
computed from the problem (which bounds the recursion depth), the top-level
solve_all call never exhausts its fuel, because solve_one fails immediately
on a goal already present on the goal stack, so each nesting level pushes a
distinct universe condition; and a goal already on the stack (with its
check false) makes solve_one return failure rather than recursing. -/
theorem c4_termination_and_cycle_guard :
    (∀ gps : GeneralProblemSolver,
      solve_all gps gps.sufficientFuel gps.goals gps.states [] ⟨[]⟩ ≠ none)
    ∧ (∀ (gps : GeneralProblemSolver) (fuel : Nat) (goal : ConditionImpl) (cur : StateSet)
        (stack : List ConditionImpl) (prot : ConditionSet),
        goal.check cur = false → goal ∈ stack →
        solve_one gps fuel goal cur stack prot = some (none, stack, prot)) := by
  constructor
  · intro gps
    refine (fuelSufficient gps gps.sufficientFuel).1 gps.goals gps.states [] ⟨[]⟩
      (fun g hg => mem_goalUniverse_of_goal gps g hg) ?_
    rw [remainingGoals_nil]
    exact Nat.le_refl _
  · intro gps fuel goal cur stack prot hcheck hmem
    have hcont : stack.contains goal = true := (contains_iff_mem stack goal).mpr hmem
    have hnc : ¬(goal.check cur = true) := by simp [hcheck]
    cases fuel with
    | zero => rw [solve_one_zero, if_neg hnc, if_pos hcont]
    | succ f => rw [solve_one_succ, if_neg hnc, if_pos hcont]

/-- Claim C4 witness: the cycle clause applied at a concrete input where the
goal is already on the stack. -/
theorem c4_witness :
    ((ConditionImpl.contain "x").check ⟨[]⟩ = false)
    ∧ ConditionImpl.contain "x" ∈ [ConditionImpl.contain "x"]
    ∧ solve_one emptyGPS 5 (.contain "x") ⟨[]⟩ [.contain "x"] ⟨[]⟩
      = some (none, [.contain "x"], ⟨[]⟩) :=
  ⟨rfl, by simp,
    c4_termination_and_cycle_guard.2 emptyGPS 5 (.contain "x") ⟨[]⟩ [.contain "x"] ⟨[]⟩
      rfl (by simp)⟩

/-- Claim C7: when the initial state set satisfies every configured goal,
solve returns success with an empty plan. -/
theorem c7_already_satisfied (gps : GeneralProblemSolver)
    (h : ∀ g ∈ gps.goals, g.check gps.states = true) : gps.solve = some [] := by
  have hr : gps.states.has_reached gps.goals = true := List.all_eq_true.mpr h
  unfold GeneralProblemSolver.solve
  rw [solve_all_reached gps _ _ _ _ _ hr]

/-- A solver whose single goal already holds in its initial state. -/
def satisfiedGPS : GeneralProblemSolver := ⟨[], [.contain "a"], ⟨[("a", .symbol)]⟩⟩

/-- Claim C7 witness: a concrete already-satisfied configuration. -/
theorem c7_witness :
    (∀ g ∈ satisfiedGPS.goals, g.check satisfiedGPS.states = true)
    ∧ satisfiedGPS.solve = some [] := by
  have hgoals : ∀ g ∈ satisfiedGPS.goals, g.check satisfiedGPS.states = true := by
    intro g hg
    have : g = .contain "a" := by simpa [satisfiedGPS] using hg
    subst this
    rfl
  exact ⟨hgoals, c7_already_satisfied satisfiedGPS hgoals⟩

/-- Claim C9: every solve_one call returns with the goal stack equal to its
entry value: the pushed goal is popped on every exit path, and the
already-true and cycle paths push nothing. -/
theorem c9_solve_one_preserves_stack (gps : GeneralProblemSolver) (fuel : Nat)
    (goal : ConditionImpl) (cur : StateSet) (stack : List ConditionImpl)
    (prot : ConditionSet) (res : SolveOutcome) (stack' : List ConditionImpl)
    (prot' : ConditionSet)
    (h : solve_one gps fuel goal cur stack prot = some (res, stack', prot')) :
    stack' = stack :=
  (stackPreserved gps fuel).2.1 goal cur stack prot res stack' prot' h

/-- Claim C9 witness: a concrete solve_one call returning with its entry
stack. -/
theorem c9_witness :
    (solve_one emptyGPS 0 (.contain "a") ⟨[("a", .symbol)]⟩ [.contain "b"] ⟨[]⟩
      = some (some (⟨[("a", .symbol)]⟩, []), [.contain "b"], ⟨[]⟩))
    ∧ ([ConditionImpl.contain "b"] : List ConditionImpl) = [.contain "b"] :=
  ⟨rfl, c9_solve_one_preserves_stack emptyGPS 0 (.contain "a") ⟨[("a", .symbol)]⟩
    [.contain "b"] ⟨[]⟩ (some (⟨[("a", .symbol)]⟩, [])) [.contain "b"] ⟨[]⟩ rfl⟩

/-- An operation that adds fact b with no prerequisites. -/
def addBOp : Operation := ⟨"add-b", [], [⟨"b", .symbol⟩], [], []⟩

/-- A solver whose first goal is already true, whose second goal is
achievable via add-b, and whose third goal is unachievable: solve_all fails
after inserting protections for the first two. -/
def clobberGPS : GeneralProblemSolver :=
  ⟨[addBOp], [.contain "a", .contain "b", .contain "c"], ⟨[("a", .symbol)]⟩⟩

/-- Claim C10: when solve_all returns failure the protected-goal set is not
restored to its entry value: the protections inserted for the
already-true-at-entry goal a and for the achieved unmet goal b remain,
because protections are removed only on the success path. -/
theorem c10_protections_not_restored :
    solve_all clobberGPS clobberGPS.sufficientFuel clobberGPS.goals clobberGPS.states [] ⟨[]⟩
      = some (none, [], ⟨[("a", [.contain "a"]), ("b", [.contain "b"])]⟩)
    ∧ (⟨[("a", [.contain "a"]), ("b", [.contain "b"])]⟩ : ConditionSet) ≠ (⟨[]⟩ : ConditionSet) :=
  ⟨rfl, by decide⟩

end PaipGps
